import Mathlib

/-!
Verification of the GrapheryExecutor tracing/recording engine.

This file gives a shallow embedding, in Lean 4, of the parts of the
repository needed to settle the frozen claims:

* `executor/utils/recorder.py` — the `Recorder` class: color assignment,
  per-statement change records, value classification
  (`process_variable_state`) with identity-based cycle detection, stdout
  delta capture, and the final fold (`_process_change_list`).
* `executor/utils/controller.py` — the context-layer machinery
  (`_prep_process` / `_post_process` / `main`) and the restricted
  importing of `_create_restrict_import` / `_collect_builtins`.
* the call sequence `Tracer.trace` (`executor/seeker/sight.py`) issues to
  the recorder for the three-print example program.

Python dictionaries are modelled as insertion-ordered association lists,
Python object identity as natural-number ids resolved through a finite
heap, and exceptions as `Option`/`Except` results.
-/

deriving instance DecidableEq for Except

namespace GrapheryExecutor

/-- Association-list lookup, modelling Python `dict[key]` / `key in dict`
(first match wins; Python dicts have unique keys so this is exact). -/
def alookup {κ α : Type} [DecidableEq κ] (m : List (κ × α)) (k : κ) : Option α :=
  match m with
  | [] => none
  | (k', v) :: rest => if k' = k then some v else alookup rest k

/-- Keys of an association list, in insertion order. -/
def akeys {κ α : Type} (m : List (κ × α)) : List κ := m.map Prod.fst

/-- Values of an association list, modelling `dict.values()`. -/
def avalues {κ α : Type} (m : List (κ × α)) : List α := m.map Prod.snd

/-- Python `d[k] = v` on an insertion-ordered dict: overwrite in place if
the key exists, append otherwise. -/
def aupdate {κ α : Type} [DecidableEq κ] (m : List (κ × α)) (k : κ) (v : α) :
    List (κ × α) :=
  match m with
  | [] => [(k, v)]
  | (k', v') :: rest =>
      if k' = k then (k', v) :: rest else (k', v') :: aupdate rest k v

/-- From `settings/variables.py`: `IDENTIFIER_SEPARATOR` is a zero-width
space followed by an at sign. -/
def IDENTIFIER_SEPARATOR : String := "\u200B@"

/-- From `recorder.py`: `identifier_to_string` joins the identifier parts
with the separator. -/
def identifier_to_string (identifier : List String) : String :=
  String.intercalate IDENTIFIER_SEPARATOR identifier

/-- `Recorder._DEFAULT_COLOR_PALETTE` (13 fixed colors). -/
def DEFAULT_COLOR_PALETTE : List String :=
  [ "#828282", "#B15928", "#A6CEE3", "#1F78B4", "#B2DF8A", "#33A02C"
  , "#FB9A99", "#E31A1C", "#FDBF6F", "#FF7F00", "#CAB2D6", "#6A3D9A"
  , "#FFFF99" ]

/-- `Recorder._ACCESSED_IDENTIFIER_STRING = identifier_to_string(("global", "accessed var"))`. -/
def ACCESSED_IDENTIFIER_STRING : String :=
  identifier_to_string ["global", "accessed var"]

/-- `Recorder._INNER_IDENTIFIER_STRING`: the inner identifier, a zero-width space followed by the word inner, in the empty namespace. -/
def INNER_IDENTIFIER_STRING : String :=
  identifier_to_string ["", "\u200Binner"]

/-- `Recorder._DEFAULT_COLOR_MAPPING`: the two pre-registered internal
identifiers, colored with the first two palette entries. -/
def DEFAULT_COLOR_MAPPING : List (String × String) :=
  [ (INNER_IDENTIFIER_STRING, DEFAULT_COLOR_PALETTE.getD 0 "")
  , (ACCESSED_IDENTIFIER_STRING, DEFAULT_COLOR_PALETTE.getD 1 "") ]

/-- Type-tag constants from `recorder.py`. -/
def OBJECT_TYPE_STRING : String := "Object"

/-- `Recorder.INIT_TYPE_STRING`. -/
def INIT_TYPE_STRING : String := "init"

/-- `Recorder.REFERENCE_TYPE_STRING`. -/
def REFERENCE_TYPE_STRING : String := "reference"

/-- `Recorder._BAD_REPR_STRING`. -/
def BAD_REPR_STRING : String := "BAD REPR FUNCTION"

/-- `Recorder._GRAPH_OBJECT_TYPES`: the `graphery_type_flag` tags of the
graph entities exported by the bundled networkx fork. -/
def GRAPH_OBJECT_TYPES : List String :=
  ["Node", "Edge", "DataEdge", "MultiEdge", "DataMultiEdge"]

/-- `Recorder._SINGULAR_TYPES`. -/
def SINGULAR_TYPES : List String := ["Number", "String", "None"]

/-- `Recorder._LINEAR_CONTAINER_TYPES`. -/
def LINEAR_CONTAINER_TYPES : List String :=
  ["List", "Tuple", "Deque", "Set", "Sequence"]

/-- `Recorder._PAIR_CONTAINER_TYPES`. -/
def PAIR_CONTAINER_TYPES : List String := ["Counter", "Mapping"]

/-!
Runtime values.  A Python value is modelled by its classification shape:
its type tag (the string `_search_type_string` computes from the chain of
isinstance tests), its own repr behaviour, and — for containers — the
object ids of its children.  Ids are resolved through a finite heap
(`List (Nat × PyVal)`), which is how cyclic object graphs (a list that
contains itself) are representable.  A repr that raises inside Python is
an `Except.error`.
-/

/-- A runtime value as seen by the classifier. -/
inductive PyVal : Type where
  /-- a non-container: scalar, graph entity, or generic object; carries
  the result of calling `repr` on it (`Except.error` = repr raised) -/
  | singular (tag : String) (rep : Except Unit String)
  /-- a linear container (list/tuple/set/...) holding child object ids -/
  | linear (tag : String) (children : List Nat)
  /-- a pair container (dict/Counter/...) holding (key id, value id) items -/
  | pair (tag : String) (items : List (Nat × Nat))
deriving DecidableEq

/-- `Recorder._search_type_string`: the type tag of a value.  In Python it
is computed by isinstance dispatch; the tag is intrinsic to the value here,
mirroring that the dispatch is a pure function of the object's type. -/
def search_type_string : PyVal → String
  | .singular tag _ => tag
  | .linear tag _ => tag
  | .pair tag _ => tag

/-- Child ids over which `_generate_linear_container_repr` iterates. -/
def linear_children : PyVal → List Nat
  | .linear _ cs => cs
  | _ => []

/-- Items over which `_generate_pair_container_repr` iterates. -/
def pair_items : PyVal → List (Nat × Nat)
  | .pair _ ps => ps
  | _ => []

/-- Intrinsic repr outcome of a value (`Except.error` = `repr` raised). -/
def repr_outcome : PyVal → Except Unit String
  | .singular _ r => r
  | .linear _ _ => .ok "<container>"
  | .pair _ _ => .ok "<container>"

/-- `Recorder._generate_repr`: best-effort repr.  The whole computation is
wrapped in `try/except Exception`, substituting the fixed placeholder on
any failure (the float-precision branch is included in the same `try`). -/
def generate_repr (rep : Except Unit String) : String :=
  match rep with
  | .ok s => s
  | .error _ => BAD_REPR_STRING

mutual

/-- The classified snapshot of one binding (`VariableState` in the spec;
the `state_mapping` dict built by `process_variable_state`).  Synthetic
`init` states created by `_init_result_object` carry no python id, hence
`pythonId : Option Nat`.  The diff-only graph fields (cytoscape id and
property mapping) are not modelled; no claim concerns them. -/
inductive VState : Type where
  | mk (typ : String) (pythonId : Option Nat) (color : String) (rep : VRepr)

/-- The `repr` field of a `VariableState`: `None`, a text, a list of child
states, or a list of key/value state pairs. -/
inductive VRepr : Type where
  | vnone
  | vtext (s : String)
  | vlist (l : List VState)
  | vpairs (l : List (VState × VState))

end

/-- Type tag of a state. -/
def VState.typ : VState → String
  | .mk t _ _ _ => t

/-- Python id recorded in a state. -/
def VState.pythonId : VState → Option Nat
  | .mk _ p _ _ => p

/-- Color recorded in a state. -/
def VState.color : VState → String
  | .mk _ _ c _ => c

/-- Representation recorded in a state. -/
def VState.rep : VState → VRepr
  | .mk _ _ _ r => r

/-- A heap: finite map from object ids to values.  Finite because a live
Python object graph is finite. -/
abbrev Heap : Type := List (Nat × PyVal)

/-- A color mapping: `Recorder._color_mapping`. -/
abbrev ColorMap : Type := List (String × String)

/-- Termination measure for the classification recursion: the number of
heap ids not yet in the visited set. -/
def unvisited_card (heap : Heap) (trace : List Nat) : Nat :=
  ((akeys heap).toFinset \ trace.toFinset).card

theorem alookup_mem_keys {κ α : Type} [DecidableEq κ]
    {m : List (κ × α)} {k : κ} {v : α} (h : alookup m k = some v) :
    k ∈ akeys m := by
  induction m with
  | nil => simp [alookup] at h
  | cons kv rest ih =>
      rw [alookup] at h
      by_cases hk : kv.1 = k
      · simp [akeys, hk]
      · simp only [hk, if_false] at h
        simp [akeys] at ih ⊢
        right
        simpa [akeys] using ih h

theorem unvisited_card_lt {heap : Heap} {trace : List Nat} {vid : Nat}
    (hk : vid ∈ akeys heap) (ht : vid ∉ trace) :
    unvisited_card heap (vid :: trace) < unvisited_card heap trace := by
  apply Finset.card_lt_card
  rw [List.toFinset_cons]
  constructor
  · exact Finset.sdiff_subset_sdiff (le_refl _)
      (Finset.subset_insert _ _)
  · intro hsub
    have hmem : vid ∈ (akeys heap).toFinset \ trace.toFinset := by
      simp [List.mem_toFinset, hk, ht]
    have := hsub hmem
    simp [List.mem_toFinset] at this

mutual

/-- `Recorder.process_variable_state` (recorder.py lines 372-414), with
`Recorder.custom_repr`'s dispatch (lines 329-354) inlined at its single
call site.  Takes the identity label, the object id of the entity
(resolved through `heap`), and the visited identity set `trace`
(`memory_trace`).  Mirrors the source order: if the id is already in the
visited set the state is tagged `reference` (and `custom_repr` then
returns `None` for it); otherwise the id is added to the set before the
container generators recurse into children, each child receiving a copy
of the extended set.  The color lookup `self._color_mapping[var_ident_str]`
raises `KeyError` for an unregistered identifier: modelled as `none`.
A dangling id cannot occur in Python (ids come from live objects); that
branch classifies as a plain object so the function is total. -/
def process_variable_state (cm : ColorMap) (heap : Heap) (var_ident_str : String)
    (vid : Nat) (trace : List Nat) : Option VState :=
  match alookup cm var_ident_str with
  | none => none
  | some color =>
      if h : vid ∈ trace then
        some (.mk REFERENCE_TYPE_STRING (some vid) color .vnone)
      else
        match hval : alookup heap vid with
        | none => some (.mk OBJECT_TYPE_STRING (some vid) color (.vtext ""))
        | some v =>
            let typ := search_type_string v
            if typ ∈ GRAPH_OBJECT_TYPES ∨ typ ∈ SINGULAR_TYPES
                ∨ typ = OBJECT_TYPE_STRING then
              some (.mk typ (some vid) color
                (.vtext (generate_repr (repr_outcome v))))
            else if typ ∈ LINEAR_CONTAINER_TYPES then
              match generate_linear_container_repr cm heap (linear_children v)
                  (vid :: trace) with
              | none => none
              | some l => some (.mk typ (some vid) color (.vlist l))
            else if typ ∈ PAIR_CONTAINER_TYPES then
              match generate_pair_container_repr cm heap (pair_items v)
                  (vid :: trace) with
              | none => none
              | some l => some (.mk typ (some vid) color (.vpairs l))
            else
              some (.mk typ (some vid) color
                (.vtext (generate_repr (repr_outcome v))))
termination_by (unvisited_card heap trace, 0)
decreasing_by
  · exact Prod.Lex.left _ _ (unvisited_card_lt (alookup_mem_keys hval) h)
  · exact Prod.Lex.left _ _ (unvisited_card_lt (alookup_mem_keys hval) h)

/-- `Recorder._generate_linear_container_repr`: classify each element of a
linear container, each with a copy of the (already extended) visited set. -/
def generate_linear_container_repr (cm : ColorMap) (heap : Heap)
    (cs : List Nat) (trace : List Nat) : Option (List VState) :=
  match cs with
  | [] => some []
  | c :: rest =>
      match process_variable_state cm heap INNER_IDENTIFIER_STRING c trace with
      | none => none
      | some s =>
          match generate_linear_container_repr cm heap rest trace with
          | none => none
          | some l => some (s :: l)
termination_by (unvisited_card heap trace, cs.length + 1)
decreasing_by
  · exact Prod.Lex.right _ (Nat.lt_succ_of_le (Nat.zero_le _))
  · exact Prod.Lex.right _ (Nat.lt_succ_self _)

/-- `Recorder._generate_pair_container_repr`: classify each key and each
value of a pair container, each with a copy of the extended visited set. -/
def generate_pair_container_repr (cm : ColorMap) (heap : Heap)
    (ps : List (Nat × Nat)) (trace : List Nat) : Option (List (VState × VState)) :=
  match ps with
  | [] => some []
  | p :: rest =>
      match process_variable_state cm heap INNER_IDENTIFIER_STRING p.1 trace with
      | none => none
      | some sk =>
          match process_variable_state cm heap INNER_IDENTIFIER_STRING p.2 trace with
          | none => none
          | some sv =>
              match generate_pair_container_repr cm heap rest trace with
              | none => none
              | some l => some ((sk, sv) :: l)
termination_by (unvisited_card heap trace, ps.length + 1)
decreasing_by
  · exact Prod.Lex.right _ (Nat.lt_succ_of_le (Nat.zero_le _))
  · exact Prod.Lex.right _ (Nat.lt_succ_of_le (Nat.zero_le _))
  · exact Prod.Lex.right _ (Nat.lt_succ_self _)

end

/-- One `ChangeRecord`: the dict appended by `Recorder.add_record`, with
headers `line` / `variables` / `accesses` / `stdout`.  `stdout` holds the
list of new output lines returned by `read_from_io` (Python `readlines`
keeps the trailing newline in each line). -/
structure Record : Type where
  line : Int
  vars : Option (List (String × VState))
  accesses : Option (List VState)
  stdout : Option (List String)

/-- The `Recorder` instance state (`recorder.py` `__init__`):  the raw
change list, the memoised folded list, the color mapping (pre-seeded with
the two internal identifiers), the cache of stdout lines already seen, and
the stream of colors the seeded `generate_hex` PRNG will produce (the PRNG
itself is Python stdlib; its output sequence is environment input here —
a finite prefix, so a palette-overflow assignment that would keep
rejecting forever is modelled as `none`). -/
structure Recorder : Type where
  changes : List Record
  finalChanges : Option (List Record)
  colorMapping : ColorMap
  stdoutCache : List String
  hexStream : List String

/-- A freshly constructed recorder, parameterised by the hex-color stream
the seeded PRNG would produce. -/
def mkRecorder (hexStream : List String) : Recorder :=
  { changes := []
  , finalChanges := none
  , colorMapping := DEFAULT_COLOR_MAPPING
  , stdoutCache := []
  , hexStream := hexStream }

/-- The retry loop of `assign_and_get_color`:
`color = generate_hex(); while color in self._color_mapping.values():
color = generate_hex()`.  Consumes the PRNG stream until a color not yet
in use appears. -/
def pick_fresh_color : List String → List String → Option (String × List String)
  | [], _ => none
  | c :: rest, used =>
      if c ∈ used then pick_fresh_color rest used else some (c, rest)

/-- `Recorder.assign_and_get_color` (recorder.py lines 173-189): a new
identifier gets the next palette entry while the mapping is smaller than
the palette, afterwards a procedurally generated color that is retried
until it collides with no already-assigned color; an identifier already in
the mapping keeps its color and the state is unchanged. -/
def assign_and_get_color (r : Recorder) (identifier_string : String) :
    Option (Recorder × String) :=
  match alookup r.colorMapping identifier_string with
  | some c => some (r, c)
  | none =>
      if r.colorMapping.length < DEFAULT_COLOR_PALETTE.length then
        let c := DEFAULT_COLOR_PALETTE.getD r.colorMapping.length ""
        some ({ r with colorMapping := r.colorMapping ++ [(identifier_string, c)] }, c)
      else
        match pick_fresh_color r.hexStream (avalues r.colorMapping) with
        | none => none
        | some (c, rest) =>
            let r' := { r with
              colorMapping := r.colorMapping ++ [(identifier_string, c)],
              hexStream := rest }
            some (r', c)

/-- `Recorder.register_variable`: renders the identifier to its string key
and assigns a color to it. -/
def register_variable (r : Recorder) (identifier : List String) :
    Option (Recorder × String) :=
  assign_and_get_color r (identifier_to_string identifier)

/-- `Recorder.add_record`: append a record with the given line number and
all three payload fields `None`. -/
def add_record (r : Recorder) (line_no : Int) : Recorder :=
  { r with changes := r.changes ++
      [{ line := line_no, vars := none, accesses := none, stdout := none }] }

/-- Index addressed by `Recorder.get_second_to_last_record` on a list of
length `n ≥ 1`: `changes[-2]` when more than one record exists, else
`changes[-1]`. -/
def second_to_last_index (n : Nat) : Nat :=
  if 1 < n then n - 2 else n - 1

/-- Replace the element at index `i` by `f` applied to it (used to model
in-place mutation of one record in the change list). -/
def modify_at {α : Type} (l : List α) (i : Nat) (f : α → α) : List α :=
  match l, i with
  | [], _ => []
  | x :: rest, 0 => f x :: rest
  | x :: rest, i + 1 => x :: modify_at rest i f

/-- `Recorder.read_from_io` (recorder.py lines 416-431): returns `None`
when no stdout stream is attached or nothing new was printed; otherwise
returns the lines past the cached prefix and updates the cache.  The
current full content of the attached stream is passed in, since in Python
the user program writes to the shared `StringIO` between calls. -/
def read_from_io (r : Recorder) (stream_now : Option (List String)) :
    Recorder × Option (List String) :=
  match stream_now with
  | none => (r, none)
  | some result =>
      if result ≠ r.stdoutCache then
        ({ r with stdoutCache := result }, some (result.drop r.stdoutCache.length))
      else (r, none)

/-- `Recorder.add_stdout_change`: store `read_from_io()` into the stdout
header of the second-to-last record.  `none` models the `IndexError` that
`self._changes[-1]` raises on an empty change list. -/
def add_stdout_change (r : Recorder) (stream_now : Option (List String)) :
    Option Recorder :=
  let (r', delta) := read_from_io r stream_now
  match r'.changes with
  | [] => none
  | _ :: _ =>
      let newChanges := modify_at r'.changes (second_to_last_index r'.changes.length)
        (fun rc => { rc with stdout := delta })
      some { r' with changes := newChanges }

/-- `Recorder.add_variable_change_to_last_record`: classify the value and
write it under the identifier into the variables dict of the last record
(creating the dict if the header still holds `None`).  Python evaluates
the classification first, so a `KeyError` there (unregistered identifier)
aborts before any record is touched. -/
def add_variable_change_to_last_record (r : Recorder) (heap : Heap)
    (var_ident_str : String) (vid : Nat) : Option Recorder :=
  match process_variable_state r.colorMapping heap var_ident_str vid [] with
  | none => none
  | some st =>
      match r.changes with
      | [] => none
      | _ :: _ =>
          let newChanges := modify_at r.changes (r.changes.length - 1)
            (fun rc => { rc with vars := some (aupdate (rc.vars.getD []) var_ident_str st) })
          some { r with changes := newChanges }

/-- `Recorder.add_variable_change_to_second_to_last_record` (recorder.py
lines 454-469): same as the last-record variant but targeting
`get_second_to_last_record`, compensating the tracer's one-step lag. -/
def add_variable_change_to_second_to_last_record (r : Recorder) (heap : Heap)
    (var_ident_str : String) (vid : Nat) : Option Recorder :=
  match process_variable_state r.colorMapping heap var_ident_str vid [] with
  | none => none
  | some st =>
      match r.changes with
      | [] => none
      | _ :: _ =>
          let newChanges := modify_at r.changes (second_to_last_index r.changes.length)
            (fun rc => { rc with vars := some (aupdate (rc.vars.getD []) var_ident_str st) })
          some { r with changes := newChanges }

/-- `Recorder._init_result_object` (recorder.py lines 481-507): the
synthetic initial record at line 0; its variables dict holds an `init`
state for every registered identifier except the two internal ones, and is
`None` when nothing beyond the default mapping was registered. -/
def init_result_object (r : Recorder) : Record :=
  { line := 0
  , vars :=
      if DEFAULT_COLOR_MAPPING.length < r.colorMapping.length then
        some ((r.colorMapping.filter (fun kv =>
            ¬(kv.1 = INNER_IDENTIFIER_STRING ∨ kv.1 = ACCESSED_IDENTIFIER_STRING))).map
          (fun kv => (kv.1, VState.mk INIT_TYPE_STRING none kv.2 .vnone)))
      else none
  , accesses := none
  , stdout := none }

/-- The fold loop inside `Recorder._process_change_list`: walk the raw
records, carrying the previous full variable mapping forward; a record
with no variable diff is copied with `variables = None` and does not
advance the carried mapping; otherwise the diff is applied on a copy.
Applying a non-empty diff when the carried mapping is `None` would be a
`TypeError` (item assignment on `None`) in Python — modelled as `none`;
it is unreachable through the recorder API, which registers identifiers
(growing the color mapping, hence the init dict) before any diff entry
can be produced. -/
def fold_changes (prev : Option (List (String × VState))) :
    List Record → Option (List Record)
  | [] => some []
  | c :: rest =>
      match c.vars with
      | none =>
          (fold_changes prev rest).map (fun l => { c with vars := none } :: l)
      | some vf =>
          match prev, vf with
          | none, [] =>
              (fold_changes none rest).map
                (fun l => { c with vars := none } :: l)
          | none, _ :: _ => none
          | some pm, _ =>
              let ccv := vf.foldl (fun m kv => aupdate m kv.1 kv.2) pm
              (fold_changes (some ccv) rest).map
                (fun l => { c with vars := some ccv } :: l)

/-- `Recorder._process_change_list` (recorder.py lines 509-535): on the
first call, prepend the synthetic init record and fold the diffs forward,
memoising the result in `_final_changes`; later calls return the memoised
list without recomputing.  `final_change_list` is a property alias for
this method. -/
def process_change_list (r : Recorder) : Option (Recorder × List Record) :=
  match r.finalChanges with
  | some fc => some (r, fc)
  | none =>
      let init_object := init_result_object r
      match fold_changes init_object.vars r.changes with
      | none => none
      | some folded =>
          let result := init_object :: folded
          some ({ r with finalChanges := some result }, result)

/-- Registering a sequence of identifier strings one after another
(repeated `assign_and_get_color` calls, as `register_variable` does for
each observed identifier). -/
def register_all (r : Recorder) : List String → Option Recorder
  | [] => some r
  | i :: rest =>
      match assign_and_get_color r i with
      | none => none
      | some (r', _) => register_all r' rest

/-- One in-scope statement event as `Tracer.trace` (sight.py lines
461-468) drives the recorder: append a record for the event's line, then
capture the stdout delta into the second-to-last record.  The current
content of the redirected stdout stream at event time is passed in. -/
def trace_step (r : Recorder) (line_no : Int) (stream_now : List String) :
    Option Recorder :=
  add_stdout_change (add_record r line_no) (some stream_now)

/-- The recorder-call sequence produced by running
`with tracer(): print('a'); print('b'); print('c')` (the three prints on
lines 2-4): a line event fires before each statement runs, and one final
line event fires on the `with` line when the block exits, so the delta of
each print is captured at the next event.  The stream grows by one line
per print (Python `print` appends a newline; `readlines` keeps it). -/
def three_print_scenario : Option Recorder :=
  (trace_step (mkRecorder []) 2 []).bind (fun r1 =>
    (trace_step r1 3 ["a\n"]).bind (fun r2 =>
      (trace_step r2 4 ["a\n", "b\n"]).bind (fun r3 =>
        trace_step r3 1 ["a\n", "b\n", "c\n"])))

/-!
Controller model (`executor/utils/controller.py`).  The context layers are
identified by tags; `_prep_process` and `_post_process` are iterations
over `self._context_layers`, recorded here as event traces.
-/

/-- The four entries of `Controller._DEFAULT_CONTEXT_LAYERS`, in source
order. -/
inductive LayerTag : Type where
  | randomContext
  | fdRedirect
  | moduleRestrict
  | resourceRestrict
deriving DecidableEq

/-- `Controller._DEFAULT_CONTEXT_LAYERS = [_RandomContext, _FDRedirectLayer,
_ModuleRestrict, _ResourceRestrict]`. -/
def DEFAULT_CONTEXT_LAYERS : List LayerTag :=
  [.randomContext, .fdRedirect, .moduleRestrict, .resourceRestrict]

/-- Observable controller actions: a layer's `enter()`, a layer's
`exit()`, or the runner call (with its success bit). -/
inductive CtrlEvent : Type where
  | enterLayer (l : LayerTag)
  | exitLayer (l : LayerTag)
  | runnerRan (ok : Bool)
deriving DecidableEq

/-- `Controller._prep_process`: `for layer in self._context_layers:
layer.enter()`. -/
def prep_process (layers : List LayerTag) : List CtrlEvent :=
  layers.map CtrlEvent.enterLayer

/-- `Controller._post_process`: `for layer in self._context_layers:
layer.exit()` — the same forward iteration as `_prep_process`. -/
def post_process (layers : List LayerTag) : List CtrlEvent :=
  layers.map CtrlEvent.exitLayer

/-- `Controller.main` with the surrounding context management:
`with self as ctrl: result = ctrl._run(...)`.  `__enter__` runs
`_prep_process`; `_run` calls the runner and, on an exception, announces a
`RUNNER_ERROR_CODE` error (the announcer raises `SystemExit`); the `with`
statement then runs `__exit__` — hence `_post_process` — before anything
propagates, whether or not the runner failed.  The returned trace lists
the actions in execution order. -/
def ctrl_main {T : Type} (layers : List LayerTag) (runner : Except String T) :
    Option T × List CtrlEvent :=
  let enter_events := prep_process layers
  let run_result := match runner with
    | .ok t => (some t, CtrlEvent.runnerRan true)
    | .error _ => (none, CtrlEvent.runnerRan false)
  let exit_events := post_process layers
  (run_result.1, enter_events ++ [run_result.2] ++ exit_events)

/-!
Restricted import (`Controller._create_restrict_import` and the
`__import__` entry of `Controller._collect_builtins`).  A module is
modelled by its name; `_sanitize_module` strips attributes, which are not
observable here, so it maps a module to itself.
-/

/-- A loaded Python module, identified by name (attributes stripped by
sanitisation are not modelled). -/
structure PyModule : Type where
  name : String
deriving DecidableEq

/-- A value bound in `Controller._custom_ns`: the injected domain modules
are `moduleVal`s; any non-module binding fails the `isinstance` test in
`__restricted_import__`. -/
inductive NsVal : Type where
  | moduleVal (m : PyModule)
  | otherVal
deriving DecidableEq

/-- `Controller._ALLOWED_STDLIB_MODULE_IMPORTS` (controller.py lines
408-425). -/
def ALLOWED_STDLIB_MODULE_IMPORTS : List String :=
  [ "math", "random", "time", "functools", "itertools", "operator"
  , "string", "collections", "re", "json", "heapq", "bisect", "copy"
  , "hashlib", "typing", "types" ]

/-- `Controller._sanitize_module`: deletes dangerous attributes from the
module; attribute-free model, so the module itself. -/
def sanitize_module (m : PyModule) : PyModule := m

/-- The `__restricted_import__` closure built by
`Controller._create_restrict_import` (controller.py lines 478-506): a name
bound to a module in the custom namespace is returned directly; a
whitelisted stdlib name or any `networkx`-prefixed name goes through the
real builtin import; everything else raises
`ImportError(f"{importing_name} not supported.")`.  Every successful
result is sanitised. -/
def restricted_import (custom_ns : List (String × NsVal))
    (builtin_import : String → PyModule) (importing_name : String) :
    Except String PyModule :=
  match alookup custom_ns importing_name with
  | some (.moduleVal m) => .ok (sanitize_module m)
  | _ =>
      if importing_name ∈ ALLOWED_STDLIB_MODULE_IMPORTS
          ∨ importing_name.startsWith "networkx" then
        .ok (sanitize_module (builtin_import importing_name))
      else
        .error (importing_name ++ " not supported.")

/-- The binding `_collect_builtins` (controller.py lines 556-576) gives
the `__import__` builtin: the restricting wrapper when the trusted/local
flag is off (`k == "__import__" and not self._is_local`), the unmodified
process builtin when the flag is on. -/
def collected_import (is_local : Bool) (custom_ns : List (String × NsVal))
    (builtin_import : String → PyModule) : String → Except String PyModule :=
  if is_local then fun n => .ok (builtin_import n)
  else restricted_import custom_ns builtin_import

/-- A heap containing a single self-referential list: object 0 is a list
whose only element is object 0 itself (Python: `l = []; l.append(l)`). -/
def self_ref_heap : Heap := [(0, PyVal.linear "List" [0])]

/-- Invariant of the color mapping maintained by `assign_and_get_color`:
while the palette is not exhausted the assigned colors are exactly a
prefix of the palette (so the next palette entry is always fresh);
afterwards the values are pairwise distinct, kept so by the retry loop. -/
def color_values_inv (r : Recorder) : Prop :=
  avalues r.colorMapping = DEFAULT_COLOR_PALETTE.take r.colorMapping.length
  ∨ (DEFAULT_COLOR_PALETTE.length ≤ r.colorMapping.length
     ∧ (avalues r.colorMapping).Nodup)

/-!
Theorems.  General lemmas first, then one theorem per claim (with its
witness or counterexample).
-/

theorem read_from_io_changes (r : Recorder) (s : Option (List String)) :
    (read_from_io r s).1.changes = r.changes := by
  rw [read_from_io.eq_def]
  cases s with
  | none => rfl
  | some result =>
      by_cases h : result ≠ r.stdoutCache
      · simp [h]
      · simp [h]

theorem modify_at_singleton {α : Type} (c : α) (f : α → α) :
    modify_at [c] 0 f = [f c] := rfl

theorem modify_at_append_two {α : Type} (l : List α) (c1 c2 : α) (f : α → α) :
    modify_at (l ++ [c1, c2]) l.length f = l ++ [f c1, c2] := by
  induction l with
  | nil => rfl
  | cons x rest ih => simpa [modify_at] using ih

theorem pvs_reference_of_visited {cm : ColorMap} {heap : Heap} {ident : String}
    {vid : Nat} {trace : List Nat} {c : String}
    (hm : vid ∈ trace) (hc : alookup cm ident = some c) :
    process_variable_state cm heap ident vid trace
      = some (.mk REFERENCE_TYPE_STRING (some vid) c .vnone) := by
  rw [process_variable_state, hc]
  simp [hm]

/-- C1: classification terminates on every value — `process_variable_state`
is a total function in this development, its well-founded recursion being
exactly the cycle-breaking argument — and (a) any object whose identity is
already in the visited set is tagged `reference` with `repr` absent, while
(b) the self-referential list classifies in finite steps, its second
occurrence being the `reference`-tagged, representation-free state. -/
theorem classification_cycle_safe :
    (∀ (cm : ColorMap) (heap : Heap) (ident : String) (vid : Nat)
        (trace : List Nat) (c : String),
      vid ∈ trace → alookup cm ident = some c →
      process_variable_state cm heap ident vid trace
        = some (.mk REFERENCE_TYPE_STRING (some vid) c .vnone))
    ∧ process_variable_state DEFAULT_COLOR_MAPPING self_ref_heap
        INNER_IDENTIFIER_STRING 0 []
      = some (.mk "List" (some 0) "#828282"
          (.vlist [.mk REFERENCE_TYPE_STRING (some 0) "#828282" .vnone])) := by
  constructor
  · intro cm heap ident vid trace c hm hc
    exact pvs_reference_of_visited hm hc
  · have hin := @pvs_reference_of_visited DEFAULT_COLOR_MAPPING self_ref_heap
      INNER_IDENTIFIER_STRING 0 [0] "#828282" (by simp) (by rfl)
    rw [process_variable_state]
    simp [alookup, self_ref_heap, DEFAULT_COLOR_MAPPING, INNER_IDENTIFIER_STRING,
      identifier_to_string, IDENTIFIER_SEPARATOR, ACCESSED_IDENTIFIER_STRING,
      DEFAULT_COLOR_PALETTE, search_type_string, linear_children,
      GRAPH_OBJECT_TYPES, SINGULAR_TYPES, OBJECT_TYPE_STRING,
      LINEAR_CONTAINER_TYPES, PAIR_CONTAINER_TYPES, REFERENCE_TYPE_STRING,
      generate_linear_container_repr] at hin ⊢
    simp [hin]

/-- Witness for C1's hypothesis-bearing conjunct: on the concrete visited
set `[0]` the classifier returns the reference state immediately. -/
theorem classification_cycle_safe_witness :
    (0 ∈ [0] ∧ alookup DEFAULT_COLOR_MAPPING INNER_IDENTIFIER_STRING
        = some "#828282")
    ∧ process_variable_state DEFAULT_COLOR_MAPPING self_ref_heap
        INNER_IDENTIFIER_STRING 0 [0]
      = some (.mk REFERENCE_TYPE_STRING (some 0) "#828282" .vnone) :=
  ⟨⟨by simp, by rfl⟩,
    classification_cycle_safe.1 DEFAULT_COLOR_MAPPING self_ref_heap
      INNER_IDENTIFIER_STRING 0 [0] "#828282" (by simp) (by rfl)⟩

/-- Counterexample to C5 as stated: on the default context layers,
`_post_process` does not run the exit actions in the reverse of the enter
order — it iterates `self._context_layers` forward, exactly like
`_prep_process`, so the exit trace differs from the reversed-layer trace. -/
theorem post_process_not_reverse_order :
    ¬ (post_process DEFAULT_CONTEXT_LAYERS
        = DEFAULT_CONTEXT_LAYERS.reverse.map CtrlEvent.exitLayer) := by
  decide

/-- C5 (amended): on leaving the controller's execution context the exit
actions of all context layers are always run — even when the runner
failed — but in the same order as their enter actions, not the opposite
order; every layer's exit action appears in the trace after the runner
call, so nothing stays applied when `main` finishes. -/
theorem ctrl_main_always_exits {T : Type} (layers : List LayerTag)
    (runner : Except String T) :
    (ctrl_main layers runner).2
      = layers.map CtrlEvent.enterLayer
        ++ [CtrlEvent.runnerRan runner.toBool]
        ++ layers.map CtrlEvent.exitLayer := by
  cases runner <;> rfl

/-- C6: a module name that is neither bound to a module in the custom
namespace (domain injection), nor on the stdlib allow-list, nor a
networkx name, is denied by the restricted import with an error message
carrying the denied name; with the trusted/local flag set, `__import__`
is left untouched by `_collect_builtins` and the same import succeeds. -/
theorem restricted_import_denies (custom_ns : List (String × NsVal))
    (builtin_import : String → PyModule) (name : String)
    (hns : alookup custom_ns name = none
        ∨ alookup custom_ns name = some .otherVal)
    (hwl : name ∉ ALLOWED_STDLIB_MODULE_IMPORTS)
    (hnx : name.startsWith "networkx" = false) :
    restricted_import custom_ns builtin_import name
        = .error (name ++ " not supported.")
    ∧ collected_import true custom_ns builtin_import name
        = .ok (builtin_import name) := by
  constructor
  · rw [restricted_import]
    rcases hns with h | h <;> rw [h] <;> simp [hwl, hnx]
  · rfl

/-- Witness for C6 at the module name `os` with an empty custom
namespace. -/
theorem restricted_import_denies_witness :
    ((alookup ([] : List (String × NsVal)) "os" = none
        ∨ alookup ([] : List (String × NsVal)) "os" = some .otherVal)
      ∧ "os" ∉ ALLOWED_STDLIB_MODULE_IMPORTS
      ∧ "os".startsWith "networkx" = false)
    ∧ restricted_import [] PyModule.mk "os" = .error "os not supported."
    ∧ collected_import true [] PyModule.mk "os" = .ok (PyModule.mk "os") :=
  ⟨⟨Or.inl rfl, by decide, by decide⟩,
    restricted_import_denies [] PyModule.mk "os" (Or.inl rfl) (by decide)
      (by decide)⟩

/-- C7: the event sequence of the three-print program yields four raw
records — one per print line plus the block-exit event — where the three
print-line records carry stdout deltas consisting exactly of the lines
printed by `print('a')`, `print('b')`, `print('c')` respectively, and no
record carries a variable diff.  (The delta lands on the record of the
statement that printed it, one event later, per the one-step lag.) -/
theorem three_print_scenario_correct :
    three_print_scenario.map (fun r =>
        r.changes.map (fun c => (c.line, c.stdout, c.vars)))
      = some [ ((2 : Int), some ["a\n"], none)
             , ((3 : Int), some ["b\n"], none)
             , ((4 : Int), some ["c\n"], none)
             , ((1 : Int), none, none) ] := by
  rfl

/-- C8: a value whose repr computation raises does not propagate the
failure — `_generate_repr` substitutes the fixed placeholder, and the
classification of such a value returns normally with the placeholder as
its textual representation. -/
theorem bad_repr_absorbed :
    (∀ e : Unit, generate_repr (.error e) = BAD_REPR_STRING)
    ∧ (∀ (cm : ColorMap) (heap : Heap) (ident : String) (vid : Nat)
          (trace : List Nat) (tag c : String),
        alookup cm ident = some c → vid ∉ trace →
        alookup heap vid = some (.singular tag (.error ())) →
        tag ∉ LINEAR_CONTAINER_TYPES → tag ∉ PAIR_CONTAINER_TYPES →
        process_variable_state cm heap ident vid trace
          = some (.mk tag (some vid) c (.vtext BAD_REPR_STRING))) := by
  constructor
  · intro e
    rfl
  · intro cm heap ident vid trace tag c hc hm hv hlin hpair
    rw [process_variable_state, hc]
    simp only [hm, dite_false, dif_neg, not_false_iff]
    rw [hv]
    by_cases h1 : tag ∈ GRAPH_OBJECT_TYPES ∨ tag ∈ SINGULAR_TYPES
        ∨ tag = OBJECT_TYPE_STRING
    · simp [hm, h1, search_type_string, repr_outcome, generate_repr,
        BAD_REPR_STRING]
    · simp [hm, h1, hlin, hpair, search_type_string, repr_outcome,
        generate_repr, BAD_REPR_STRING]

/-- Witness for C8: a concrete object at id 5 whose repr raises is
classified as an `Object` with the placeholder text. -/
theorem bad_repr_absorbed_witness :
    (alookup DEFAULT_COLOR_MAPPING INNER_IDENTIFIER_STRING = some "#828282"
      ∧ (0 : Nat) ∉ ([] : List Nat)
      ∧ alookup [((5 : Nat), PyVal.singular "Object" (.error ()))] 5
          = some (PyVal.singular "Object" (.error ()))
      ∧ "Object" ∉ LINEAR_CONTAINER_TYPES
      ∧ "Object" ∉ PAIR_CONTAINER_TYPES)
    ∧ process_variable_state DEFAULT_COLOR_MAPPING
        [(5, PyVal.singular "Object" (.error ()))] INNER_IDENTIFIER_STRING 5 []
      = some (.mk "Object" (some 5) "#828282" (.vtext BAD_REPR_STRING)) :=
  ⟨⟨by rfl, by simp, by rfl, by decide, by decide⟩,
    bad_repr_absorbed.2 DEFAULT_COLOR_MAPPING
      [(5, PyVal.singular "Object" (.error ()))] INNER_IDENTIFIER_STRING 5 []
      "Object" "#828282" (by rfl) (by simp) (by rfl) (by decide) (by decide)⟩

theorem fold_changes_all_none (cs : List Record) :
    ∀ prev, (∀ c ∈ cs, c.vars = none) →
    fold_changes prev cs = some (cs.map (fun c => { c with vars := none })) := by
  induction cs with
  | nil => intro prev _; rfl
  | cons c rest ih =>
      intro prev h
      have hc : c.vars = none := h c (by simp)
      rw [fold_changes, hc]
      rw [ih prev (fun x hx => h x (by simp [hx]))]
      rfl

theorem foldl_add_record (lines : List Int) :
    ∀ r0 : Recorder,
    (lines.foldl add_record r0).changes
        = r0.changes ++ lines.map
            (fun ln => ({ line := ln, vars := none, accesses := none
                        , stdout := none } : Record))
      ∧ (lines.foldl add_record r0).finalChanges = r0.finalChanges
      ∧ (lines.foldl add_record r0).colorMapping = r0.colorMapping := by
  induction lines with
  | nil => intro r0; simp
  | cons ln rest ih =>
      intro r0
      obtain ⟨h1, h2, h3⟩ := ih (add_record r0 ln)
      refine ⟨?_, ?_, ?_⟩
      · rw [List.foldl_cons, h1]
        simp [add_record]
      · rw [List.foldl_cons, h2]
        rfl
      · rw [List.foldl_cons, h3]
        rfl

/-- C2: after any number of `add_record` calls on a fresh recorder, the
folded list returned by `_process_change_list` / `final_change_list` has
exactly one more entry than the raw change list — the synthetic initial
record plus one folded entry per raw record — and with zero records the
result is still the well-formed one-element list, not an error. -/
theorem final_change_list_length (hs : List String) (lines : List Int) :
    ∃ (r' : Recorder) (res : List Record),
      process_change_list (lines.foldl add_record (mkRecorder hs))
          = some (r', res)
        ∧ res.length = lines.length + 1
        ∧ res.head? = some (init_result_object
            (lines.foldl add_record (mkRecorder hs))) := by
  obtain ⟨hch, hfc, _⟩ := foldl_add_record lines (mkRecorder hs)
  have hnone : ∀ c ∈ (lines.foldl add_record (mkRecorder hs)).changes,
      c.vars = none := by
    rw [hch]
    intro c hc
    simp [mkRecorder] at hc
    obtain ⟨ln, _, hev⟩ := hc
    rw [← hev]
  have hfc' : (lines.foldl add_record (mkRecorder hs)).finalChanges = none := by
    rw [hfc]
    rfl
  have hfold := fold_changes_all_none _
    ((init_result_object (lines.foldl add_record (mkRecorder hs))).vars) hnone
  simp only [process_change_list, hfc', hfold]
  refine ⟨_, _, rfl, ?_, ?_⟩
  · simp only [mkRecorder] at hch ⊢
    simp [hch]
  · simp [mkRecorder]

/-- C3: finalization is idempotent and cached — the first
`_process_change_list` call stores its result in `_final_changes`, a
second call returns the identical result, and once the memo is set the
fold is not recomputed (the memoised list is returned unchanged whatever
the raw change list now holds). -/
theorem finalize_idempotent_cached :
    (∀ (r r' : Recorder) (res : List Record),
        process_change_list r = some (r', res) →
        r'.finalChanges = some res ∧ process_change_list r' = some (r', res))
    ∧ (∀ (r : Recorder) (fc cs : List Record),
        r.finalChanges = some fc →
        process_change_list { r with changes := cs }
          = some ({ r with changes := cs }, fc)) := by
  constructor
  · intro r r' res h
    rw [process_change_list] at h
    cases hfc : r.finalChanges with
    | some fc =>
        rw [hfc] at h
        obtain ⟨hr, hres⟩ := Option.some.inj h |> Prod.mk.inj
        constructor
        · rw [← hr, hfc, hres]
        · rw [process_change_list, ← hr, hfc, hres]
    | none =>
        rw [hfc] at h
        simp only [] at h
        cases hf : fold_changes (init_result_object r).vars r.changes with
        | none => rw [hf] at h; exact absurd h (by simp)
        | some folded =>
            rw [hf] at h
            obtain ⟨hr, hres⟩ := Option.some.inj h |> Prod.mk.inj
            constructor
            · rw [← hr, ← hres]
            · rw [process_change_list, ← hr]
              simp [← hres]
  · intro r fc cs h
    rw [process_change_list]
    simp [h]

/-- Witness for C3: finalizing a one-record recorder twice returns the
identical cached two-element result. -/
theorem finalize_idempotent_cached_witness :
    process_change_list (add_record (mkRecorder []) 1)
        = some (⟨[⟨1, none, none, none⟩], some [⟨0, none, none, none⟩, ⟨1, none, none, none⟩], DEFAULT_COLOR_MAPPING, [], []⟩, [⟨0, none, none, none⟩, ⟨1, none, none, none⟩])
    ∧ process_change_list ⟨[⟨1, none, none, none⟩], some [⟨0, none, none, none⟩, ⟨1, none, none, none⟩], DEFAULT_COLOR_MAPPING, [], []⟩
        = some (⟨[⟨1, none, none, none⟩], some [⟨0, none, none, none⟩, ⟨1, none, none, none⟩], DEFAULT_COLOR_MAPPING, [], []⟩, [⟨0, none, none, none⟩, ⟨1, none, none, none⟩]) :=
  ⟨rfl, (finalize_idempotent_cached.1 (add_record (mkRecorder []) 1) _ _ rfl).2⟩

/-- C9: the operations targeting the previous record fall back to the
last record when only one exists.  With exactly one record both
`add_stdout_change` and `add_variable_change_to_second_to_last_record`
write into that single record; with two or more records they write into
the record immediately before the last one. -/
theorem second_to_last_fallback :
    (∀ (r : Recorder) (c : Record) (s : Option (List String)),
        r.changes = [c] →
        add_stdout_change r s
          = some { (read_from_io r s).1 with
              changes := [{ c with stdout := (read_from_io r s).2 }] })
    ∧ (∀ (r : Recorder) (l : List Record) (c1 c2 : Record)
          (s : Option (List String)),
        r.changes = l ++ [c1, c2] →
        add_stdout_change r s
          = some { (read_from_io r s).1 with
              changes := l ++ [{ c1 with stdout := (read_from_io r s).2 }, c2] })
    ∧ (∀ (r : Recorder) (heap : Heap) (ident : String) (vid : Nat)
          (c : Record) (st : VState),
        r.changes = [c] →
        process_variable_state r.colorMapping heap ident vid [] = some st →
        add_variable_change_to_second_to_last_record r heap ident vid
          = some { r with changes :=
              [{ c with vars := some (aupdate (c.vars.getD []) ident st) }] })
    ∧ (∀ (r : Recorder) (heap : Heap) (ident : String) (vid : Nat)
          (l : List Record) (c1 c2 : Record) (st : VState),
        r.changes = l ++ [c1, c2] →
        process_variable_state r.colorMapping heap ident vid [] = some st →
        add_variable_change_to_second_to_last_record r heap ident vid
          = some { r with changes := l ++
              [{ c1 with vars := some (aupdate (c1.vars.getD []) ident st) }
              , c2] }) := by
  have hidx1 : second_to_last_index 1 = 0 := by rfl
  have hidx2 : ∀ n : Nat, second_to_last_index (n + 2) = n := by
    intro n
    rw [second_to_last_index, if_pos (by omega)]
    omega
  refine ⟨?_, ?_, ?_, ?_⟩
  · intro r c s h
    rcases hrw : read_from_io r s with ⟨r', delta⟩
    have hch : r'.changes = [c] := by
      have h0 := read_from_io_changes r s
      rw [hrw] at h0
      rw [show ((r', delta).1 : Recorder) = r' from rfl] at h0
      rw [h0, h]
    rw [add_stdout_change, hrw]
    simp only [hch, List.length_cons, List.length_nil, hidx1, modify_at]
  · intro r l c1 c2 s h
    rcases hrw : read_from_io r s with ⟨r', delta⟩
    have hch : r'.changes = l ++ [c1, c2] := by
      have h0 := read_from_io_changes r s
      rw [hrw] at h0
      rw [show ((r', delta).1 : Recorder) = r' from rfl] at h0
      rw [h0, h]
    have hlen : (l ++ [c1, c2]).length = l.length + 2 := by simp
    rw [add_stdout_change, hrw]
    dsimp only
    cases hl : l ++ [c1, c2] with
    | nil => simp at hl
    | cons x rest =>
        rw [hch, hl]
        simp only []
        rw [← hl]
        simp only [hlen, hidx2, modify_at_append_two]
  · intro r heap ident vid c st h hp
    rw [add_variable_change_to_second_to_last_record, hp, h]
    simp only [List.length_cons, List.length_nil, hidx1, modify_at]
  · intro r heap ident vid l c1 c2 st h hp
    rw [add_variable_change_to_second_to_last_record, hp, h]
    have hlen : (l ++ [c1, c2]).length = l.length + 2 := by simp
    cases hl : l ++ [c1, c2] with
    | nil => simp at hl
    | cons x rest =>
        simp only []
        rw [← hl]
        simp only [hlen, hidx2, modify_at_append_two]

/-- Witness for C9: on a recorder holding the single record of line 7, the
stdout delta of a one-line stream lands in that record. -/
theorem second_to_last_fallback_witness :
    (add_record (mkRecorder []) 7).changes
        = [{ line := 7, vars := none, accesses := none, stdout := none }]
    ∧ add_stdout_change (add_record (mkRecorder []) 7) (some ["x\n"])
      = some { (read_from_io (add_record (mkRecorder []) 7) (some ["x\n"])).1 with
          changes := [{ ({ line := 7, vars := none, accesses := none
                         , stdout := none } : Record) with
            stdout := (read_from_io (add_record (mkRecorder []) 7)
              (some ["x\n"])).2 }] } :=
  ⟨rfl, second_to_last_fallback.1 (add_record (mkRecorder []) 7)
    { line := 7, vars := none, accesses := none, stdout := none }
    (some ["x\n"]) rfl⟩

mutual

theorem pvs_isSome (cm : ColorMap) (heap : Heap) (ident : String) (vid : Nat)
    (trace : List Nat)
    (hin : (alookup cm INNER_IDENTIFIER_STRING).isSome = true)
    (hid : (alookup cm ident).isSome = true) :
    (process_variable_state cm heap ident vid trace).isSome = true := by
  cases hc : alookup cm ident with
  | none => rw [hc] at hid; simp at hid
  | some c =>
      rw [process_variable_state, hc]
      by_cases hm : vid ∈ trace
      · simp [hm]
      · simp only [hm, dite_false, dif_neg, not_false_iff]
        cases hv : alookup heap vid with
        | none => simp
        | some v =>
            by_cases h1 : search_type_string v ∈ GRAPH_OBJECT_TYPES
                ∨ search_type_string v ∈ SINGULAR_TYPES
                ∨ search_type_string v = OBJECT_TYPE_STRING
            · simp [h1]
            · by_cases h2 : search_type_string v ∈ LINEAR_CONTAINER_TYPES
              · have hg := glc_isSome cm heap (linear_children v) (vid :: trace) hin
                cases hgl : generate_linear_container_repr cm heap
                    (linear_children v) (vid :: trace) with
                | none => rw [hgl] at hg; simp at hg
                | some l => simp [h1, h2, hgl]
              · by_cases h3 : search_type_string v ∈ PAIR_CONTAINER_TYPES
                · have hg := gpc_isSome cm heap (pair_items v) (vid :: trace) hin
                  cases hgp : generate_pair_container_repr cm heap
                      (pair_items v) (vid :: trace) with
                  | none => rw [hgp] at hg; simp at hg
                  | some l => simp [h1, h2, h3, hgp]
                · simp [h1, h2, h3]
termination_by (unvisited_card heap trace, 0)
decreasing_by
  · exact Prod.Lex.left _ _ (unvisited_card_lt (alookup_mem_keys hv) hm)
  · exact Prod.Lex.left _ _ (unvisited_card_lt (alookup_mem_keys hv) hm)

theorem glc_isSome (cm : ColorMap) (heap : Heap) (cs : List Nat)
    (trace : List Nat)
    (hin : (alookup cm INNER_IDENTIFIER_STRING).isSome = true) :
    (generate_linear_container_repr cm heap cs trace).isSome = true := by
  cases cs with
  | nil => rw [generate_linear_container_repr]; rfl
  | cons c rest =>
      have h1 := pvs_isSome cm heap INNER_IDENTIFIER_STRING c trace hin hin
      have h2 := glc_isSome cm heap rest trace hin
      rw [generate_linear_container_repr]
      cases hc : process_variable_state cm heap INNER_IDENTIFIER_STRING c trace with
      | none => rw [hc] at h1; simp at h1
      | some s =>
          cases hr : generate_linear_container_repr cm heap rest trace with
          | none => rw [hr] at h2; simp at h2
          | some l => simp
termination_by (unvisited_card heap trace, cs.length + 1)
decreasing_by
  · exact Prod.Lex.right _ (Nat.lt_succ_of_le (Nat.zero_le _))
  · exact Prod.Lex.right _ (Nat.lt_succ_self _)

theorem gpc_isSome (cm : ColorMap) (heap : Heap) (ps : List (Nat × Nat))
    (trace : List Nat)
    (hin : (alookup cm INNER_IDENTIFIER_STRING).isSome = true) :
    (generate_pair_container_repr cm heap ps trace).isSome = true := by
  cases ps with
  | nil => rw [generate_pair_container_repr]; rfl
  | cons p rest =>
      have h1 := pvs_isSome cm heap INNER_IDENTIFIER_STRING p.1 trace hin hin
      have h2 := pvs_isSome cm heap INNER_IDENTIFIER_STRING p.2 trace hin hin
      have h3 := gpc_isSome cm heap rest trace hin
      rw [generate_pair_container_repr]
      cases hc1 : process_variable_state cm heap INNER_IDENTIFIER_STRING p.1 trace with
      | none => rw [hc1] at h1; simp at h1
      | some s1 =>
          cases hc2 : process_variable_state cm heap INNER_IDENTIFIER_STRING p.2 trace with
          | none => rw [hc2] at h2; simp at h2
          | some s2 =>
              cases hr : generate_pair_container_repr cm heap rest trace with
              | none => rw [hr] at h3; simp at h3
              | some l => simp
termination_by (unvisited_card heap trace, ps.length + 1)
decreasing_by
  · exact Prod.Lex.right _ (Nat.lt_succ_of_le (Nat.zero_le _))
  · exact Prod.Lex.right _ (Nat.lt_succ_of_le (Nat.zero_le _))
  · exact Prod.Lex.right _ (Nat.lt_succ_self _)

end

/-- C10: registration is a precondition for recording a variable.  An
identifier never given a color makes `process_variable_state` — and hence
`add_variable_change_to_last_record` — fail at the color-table lookup
(`KeyError`, modelled as `none`); when the identifier is registered (and
the pre-registered internal container-children identifier is present, as
it always is in a real recorder), the lookup succeeds and classification
returns normally. -/
theorem registration_precondition :
    (∀ (cm : ColorMap) (heap : Heap) (ident : String) (vid : Nat)
        (trace : List Nat),
      alookup cm ident = none →
      process_variable_state cm heap ident vid trace = none)
    ∧ (∀ (r : Recorder) (heap : Heap) (ident : String) (vid : Nat),
        alookup r.colorMapping ident = none →
        add_variable_change_to_last_record r heap ident vid = none)
    ∧ (∀ (cm : ColorMap) (heap : Heap) (ident : String) (vid : Nat)
          (trace : List Nat),
        (alookup cm INNER_IDENTIFIER_STRING).isSome = true →
        (alookup cm ident).isSome = true →
        (process_variable_state cm heap ident vid trace).isSome = true) := by
  have hfail : ∀ (cm : ColorMap) (heap : Heap) (ident : String) (vid : Nat)
      (trace : List Nat), alookup cm ident = none →
      process_variable_state cm heap ident vid trace = none := by
    intro cm heap ident vid trace h
    rw [process_variable_state, h]
  refine ⟨hfail, ?_, ?_⟩
  · intro r heap ident vid h
    rw [add_variable_change_to_last_record, hfail _ _ _ _ _ h]
  · intro cm heap ident vid trace hin hid
    exact pvs_isSome cm heap ident vid trace hin hid

/-- Witness for C10: the unregistered identifier `x` makes classification
fail on the default mapping, while the pre-registered inner identifier
classifies successfully. -/
theorem registration_precondition_witness :
    (alookup DEFAULT_COLOR_MAPPING "x" = none
      ∧ process_variable_state DEFAULT_COLOR_MAPPING [] "x" 0 [] = none)
    ∧ ((alookup DEFAULT_COLOR_MAPPING INNER_IDENTIFIER_STRING).isSome = true
      ∧ (process_variable_state DEFAULT_COLOR_MAPPING []
          INNER_IDENTIFIER_STRING 0 []).isSome = true) :=
  ⟨⟨by rfl, registration_precondition.1 DEFAULT_COLOR_MAPPING [] "x" 0 [] (by rfl)⟩,
   ⟨by rfl, registration_precondition.2.2 DEFAULT_COLOR_MAPPING []
      INNER_IDENTIFIER_STRING 0 [] (by rfl) (by rfl)⟩⟩

theorem alookup_eq_none_not_mem {κ α : Type} [DecidableEq κ]
    {m : List (κ × α)} {k : κ} (h : alookup m k = none) : k ∉ akeys m := by
  induction m with
  | nil => simp [akeys]
  | cons kv rest ih =>
      rw [alookup] at h
      by_cases hk : kv.1 = k
      · simp [hk] at h
      · simp only [hk, if_false] at h
        have hr := ih h
        simp only [akeys, List.map_cons, List.mem_cons] at hr ⊢
        rintro (he | he)
        · exact hk he.symm
        · exact hr (by simpa [akeys] using he)

theorem alookup_mem_of_some {κ α : Type} [DecidableEq κ] :
    ∀ {m : List (κ × α)} {k : κ} {v : α}, alookup m k = some v → (k, v) ∈ m := by
  intro m
  induction m with
  | nil => intro k v h; simp [alookup] at h
  | cons kv rest ih =>
      intro k v h
      rw [alookup] at h
      by_cases hk : kv.1 = k
      · simp only [hk, if_pos] at h
        have hv := Option.some.inj h
        have hkv : kv = (k, v) := by
          obtain ⟨k1, v1⟩ := kv
          simp only at hk hv
          simp [hk, hv]
        rw [← hkv]
        exact List.mem_cons_self _ _
      · simp only [hk, if_false] at h
        exact List.mem_cons_of_mem _ (ih h)

theorem alookup_append_of_some {κ α : Type} [DecidableEq κ]
    {m : List (κ × α)} (m2 : List (κ × α)) {k : κ} {v : α}
    (h : alookup m k = some v) :
    alookup (m ++ m2) k = some v := by
  induction m with
  | nil => simp [alookup] at h
  | cons kv rest ih =>
      rw [alookup] at h
      rw [List.cons_append, alookup]
      by_cases hk : kv.1 = k
      · simpa [hk] using h
      · simp only [hk, if_false] at h ⊢
        exact ih h

theorem alookup_append_self {κ α : Type} [DecidableEq κ]
    {m : List (κ × α)} {k : κ} (v : α) (h : alookup m k = none) :
    alookup (m ++ [(k, v)]) k = some v := by
  induction m with
  | nil => simp [alookup]
  | cons kv rest ih =>
      rw [alookup] at h
      rw [List.cons_append, alookup]
      by_cases hk : kv.1 = k
      · simp [hk] at h
      · simp only [hk, if_false] at h ⊢
        exact ih h

theorem pick_fresh_color_spec :
    ∀ (stream used : List String) (c : String) (rest : List String),
      pick_fresh_color stream used = some (c, rest) → c ∉ used := by
  intro stream
  induction stream with
  | nil => intro used c rest h; simp [pick_fresh_color] at h
  | cons x xs ih =>
      intro used c rest h
      rw [pick_fresh_color] at h
      by_cases hx : x ∈ used
      · simp only [hx, if_true, if_pos] at h
        exact ih used c rest h
      · simp only [hx, if_false, if_neg, not_false_iff] at h
        obtain ⟨hc, _⟩ := Prod.mk.inj (Option.some.inj h)
        rw [← hc]
        exact hx

theorem take_succ_getD {α : Type} (d : α) :
    ∀ (l : List α) (n : Nat), n < l.length →
      l.take (n + 1) = l.take n ++ [l.getD n d] := by
  intro l
  induction l with
  | nil => intro n h; simp at h
  | cons x xs ih =>
      intro n h
      cases n with
      | zero => simp
      | succ m =>
          simp only [List.take_succ_cons, List.getD_cons_succ, List.cons_append]
          rw [ih m (by simpa using h)]

theorem nodup_map_inj {α β : Type} (f : α → β) :
    ∀ (l : List α), (l.map f).Nodup →
      ∀ a ∈ l, ∀ b ∈ l, f a = f b → a = b := by
  intro l
  induction l with
  | nil => simp
  | cons x xs ih =>
      intro h a ha b hb hf
      rw [List.map_cons, List.nodup_cons] at h
      rcases List.mem_cons.mp ha with rfl | ha' <;>
        rcases List.mem_cons.mp hb with rfl | hb'
      · rfl
      · exact absurd (hf ▸ List.mem_map_of_mem f hb') h.1
      · exact absurd (hf ▸ List.mem_map_of_mem f ha') h.1
      · exact ih h.2 a ha' b hb' hf

theorem assign_cases {r r' : Recorder} {i c : String}
    (h : assign_and_get_color r i = some (r', c)) :
    (r' = r ∧ alookup r.colorMapping i = some c)
    ∨ (alookup r.colorMapping i = none
       ∧ r'.colorMapping = r.colorMapping ++ [(i, c)]
       ∧ ((r.colorMapping.length < DEFAULT_COLOR_PALETTE.length
           ∧ c = DEFAULT_COLOR_PALETTE.getD r.colorMapping.length "")
          ∨ (DEFAULT_COLOR_PALETTE.length ≤ r.colorMapping.length
             ∧ c ∉ avalues r.colorMapping))) := by
  rw [assign_and_get_color] at h
  cases hc : alookup r.colorMapping i with
  | some c0 =>
      rw [hc] at h
      simp only [] at h
      obtain ⟨h1, h2⟩ := Prod.mk.inj (Option.some.inj h)
      refine Or.inl ⟨h1.symm, ?_⟩
      rw [h2]
  | none =>
      rw [hc] at h
      simp only [] at h
      by_cases hlen : r.colorMapping.length < DEFAULT_COLOR_PALETTE.length
      · rw [if_pos hlen] at h
        obtain ⟨h1, h2⟩ := Prod.mk.inj (Option.some.inj h)
        refine Or.inr ⟨rfl, ?_, Or.inl ⟨hlen, h2.symm⟩⟩
        rw [← h1, ← h2]
      · rw [if_neg hlen] at h
        cases hp : pick_fresh_color r.hexStream (avalues r.colorMapping) with
        | none => rw [hp] at h; simp at h
        | some p =>
            rw [hp] at h
            simp only [] at h
            obtain ⟨h1, h2⟩ := Prod.mk.inj (Option.some.inj h)
            have hfresh := pick_fresh_color_spec r.hexStream
              (avalues r.colorMapping) p.1 p.2 (by rw [hp])
            refine Or.inr ⟨rfl, ?_, Or.inr ⟨by omega, h2 ▸ hfresh⟩⟩
            rw [← h1, ← h2]

theorem palette_nodup : DEFAULT_COLOR_PALETTE.Nodup := by decide

theorem assign_preserves_inv {r r' : Recorder} {i c : String}
    (h : assign_and_get_color r i = some (r', c))
    (hv : color_values_inv r) : color_values_inv r' := by
  rcases assign_cases h with ⟨rfl, _⟩ | ⟨hnone, hcm, hcase⟩
  · exact hv
  · have hvals' : avalues r'.colorMapping = avalues r.colorMapping ++ [c] := by
      rw [hcm]
      simp [avalues]
    have hlen' : r'.colorMapping.length = r.colorMapping.length + 1 := by
      rw [hcm]
      simp
    rcases hcase with ⟨hlt, hcpal⟩ | ⟨hge, hfresh⟩
    · rcases hv with hpal | ⟨hge, _⟩
      · left
        rw [hvals', hlen', hpal, hcpal]
        exact (take_succ_getD "" DEFAULT_COLOR_PALETTE r.colorMapping.length hlt).symm
      · exact absurd hlt (by omega)
    · right
      constructor
      · omega
      · have hnd : (avalues r.colorMapping).Nodup := by
          rcases hv with hpal | ⟨_, hnd⟩
          · rw [hpal]
            exact List.Nodup.sublist (List.take_sublist _ _) palette_nodup
          · exact hnd
        rw [hvals']
        refine List.Nodup.append hnd (List.nodup_singleton c) ?_
        intro a ha hb
        simp at hb
        subst hb
        exact hfresh ha

theorem assign_registers {r r' : Recorder} {i c : String}
    (h : assign_and_get_color r i = some (r', c)) :
    alookup r'.colorMapping i = some c := by
  rcases assign_cases h with ⟨rfl, hc⟩ | ⟨hnone, hcm, _⟩
  · exact hc
  · rw [hcm]
    exact alookup_append_self c hnone

theorem assign_monotone {r r' : Recorder} {i c : String}
    (h : assign_and_get_color r i = some (r', c)) {j cj : String}
    (hj : alookup r.colorMapping j = some cj) :
    alookup r'.colorMapping j = some cj := by
  rcases assign_cases h with ⟨rfl, _⟩ | ⟨_, hcm, _⟩
  · exact hj
  · rw [hcm]
    exact alookup_append_of_some _ hj

theorem register_all_inv :
    ∀ (idents : List String) (r r' : Recorder),
      register_all r idents = some r' → color_values_inv r →
      color_values_inv r' := by
  intro idents
  induction idents with
  | nil =>
      intro r r' h hv
      rw [register_all] at h
      rw [← Option.some.inj h]
      exact hv
  | cons i rest ih =>
      intro r r' h hv
      rw [register_all] at h
      cases ha : assign_and_get_color r i with
      | none => rw [ha] at h; simp at h
      | some p =>
          rw [ha] at h
          simp only [] at h
          exact ih p.1 r' h (assign_preserves_inv (by rw [ha]) hv)

theorem register_all_monotone :
    ∀ (idents : List String) (r r' : Recorder),
      register_all r idents = some r' →
      ∀ (j cj : String), alookup r.colorMapping j = some cj →
      alookup r'.colorMapping j = some cj := by
  intro idents
  induction idents with
  | nil =>
      intro r r' h j cj hj
      rw [register_all] at h
      rw [← Option.some.inj h]
      exact hj
  | cons i rest ih =>
      intro r r' h j cj hj
      rw [register_all] at h
      cases ha : assign_and_get_color r i with
      | none => rw [ha] at h; simp at h
      | some p =>
          rw [ha] at h
          simp only [] at h
          exact ih p.1 r' h j cj (assign_monotone (by rw [ha]) hj)

theorem register_all_registers :
    ∀ (idents : List String) (r r' : Recorder),
      register_all r idents = some r' →
      ∀ i ∈ idents, (alookup r'.colorMapping i).isSome = true := by
  intro idents
  induction idents with
  | nil =>
      intro r r' _ i hi
      simp at hi
  | cons j rest ih =>
      intro r r' h i hi
      rw [register_all] at h
      cases ha : assign_and_get_color r j with
      | none => rw [ha] at h; simp at h
      | some p =>
          rw [ha] at h
          simp only [] at h
          rcases List.mem_cons.mp hi with rfl | hi'
          · have h1 : alookup p.1.colorMapping i = some p.2 :=
              assign_registers (by rw [ha])
            have h2 := register_all_monotone rest p.1 r' h i p.2 h1
            rw [h2]
            rfl
          · exact ih p.1 r' h i hi'

/-- C4: registering any number of pairwise-distinct identifiers assigns
each a color exactly once — an already-registered identifier keeps its
color and the state is untouched — and the assigned colors are pairwise
distinct, both while drawing from the 13-entry palette and after
overflowing into the procedural hex generator (whose retry loop rejects
any color already in use). -/
theorem color_uniqueness :
    (∀ (hs idents : List String) (r' : Recorder),
        idents.Nodup →
        register_all (mkRecorder hs) idents = some r' →
        (∀ i ∈ idents, (alookup r'.colorMapping i).isSome = true)
        ∧ (∀ (i1 i2 c1 c2 : String), i1 ∈ idents → i2 ∈ idents → i1 ≠ i2 →
            alookup r'.colorMapping i1 = some c1 →
            alookup r'.colorMapping i2 = some c2 → c1 ≠ c2))
    ∧ (∀ (r : Recorder) (i c : String),
        alookup r.colorMapping i = some c →
        assign_and_get_color r i = some (r, c)) := by
  constructor
  · intro hs idents r' _ hreg
    have hinv0 : color_values_inv (mkRecorder hs) := by
      left
      rfl
    have hinv := register_all_inv idents (mkRecorder hs) r' hreg hinv0
    refine ⟨register_all_registers idents (mkRecorder hs) r' hreg, ?_⟩
    intro i1 i2 c1 c2 _ _ hne h1 h2 hcc
    have hvals : (r'.colorMapping.map Prod.snd).Nodup := by
      rcases hinv with hpal | ⟨_, hnd⟩
      · show (avalues r'.colorMapping).Nodup
        rw [hpal]
        exact List.Nodup.sublist (List.take_sublist _ _) palette_nodup
      · exact hnd
    have heq := nodup_map_inj Prod.snd r'.colorMapping hvals
      (i1, c1) (alookup_mem_of_some h1) (i2, c2) (alookup_mem_of_some h2)
      (by simp [hcc])
    exact hne (congrArg Prod.fst heq)
  · intro r i c hc
    rw [assign_and_get_color, hc]

/-- Witness for C4: fifteen distinct identifiers — two beyond the
13-entry palette — all get registered with distinct colors, the overflow
drawing from a concrete hex stream whose first entry collides with a
palette color and is rejected by the retry loop. -/
theorem color_uniqueness_witness :
    (["v0", "v1", "v2", "v3", "v4", "v5", "v6", "v7", "v8", "v9", "v10",
      "v11", "v12", "v13", "v14"] : List String).Nodup
    ∧ ((register_all (mkRecorder ["#828282", "#aa0011", "#bb2233", "#cc4455", "#dd6677"])
          ["v0", "v1", "v2", "v3", "v4", "v5", "v6", "v7", "v8", "v9", "v10",
           "v11", "v12", "v13", "v14"]).elim False
        (fun r' => ∀ i ∈ (["v0", "v1", "v2", "v3", "v4", "v5", "v6", "v7",
            "v8", "v9", "v10", "v11", "v12", "v13", "v14"] : List String),
          (alookup r'.colorMapping i).isSome = true)) := by
  refine ⟨by decide, ?_⟩
  cases hreg : register_all (mkRecorder ["#828282", "#aa0011", "#bb2233", "#cc4455", "#dd6677"])
      ["v0", "v1", "v2", "v3", "v4", "v5", "v6", "v7", "v8", "v9", "v10",
       "v11", "v12", "v13", "v14"] with
  | none =>
      have hne : (register_all
          (mkRecorder ["#828282", "#aa0011", "#bb2233", "#cc4455", "#dd6677"])
          ["v0", "v1", "v2", "v3", "v4", "v5", "v6", "v7", "v8", "v9", "v10",
           "v11", "v12", "v13", "v14"]).isSome = true := by decide
      rw [hreg] at hne
      simp at hne
  | some r' =>
      exact (color_uniqueness.1 _ _ r' (by decide) hreg).1

end GrapheryExecutor
